import Mathlib

set_option maxRecDepth 100000

/-!
Shallow embedding of the eudex phonetic hashing library.

The embedding models the two source files of the repository:

* `src/lib.rs` — the phone tables, `Hash::new`, the `Sub` impl producing a
  `Difference`, and the distance functions `dist`, `xor`, `hamming`, `similar`.
* `src/raw.rs` — the raw API: `map_first` and `filter`, together with its own
  copies of the four tables (typed `u8` there instead of `u64`).

Machine integers are modelled as `Nat` with explicit `% 2 ^ 64` (for `u64`
wrapping) and `% 256` (for `u8` wrapping) at the points where the source can
overflow.  Strings are modelled as lists of bytes (`List Nat`), exactly the
byte sequence `str::as_bytes` yields.
-/

namespace Eudex

/-- The constant `LETTERS` from `src/lib.rs`: number of letters in the phone map. -/
def LETTERS : Nat := 26

/-- The constant `LETTERS_C1` from `src/lib.rs`: number of letters in the C1 phone map. -/
def LETTERS_C1 : Nat := 33

/-- The sound table `PHONES: [u64; LETTERS]` from `src/lib.rs`, indexed by
letter minus `a`.  Bit 0 is the discriminant; bits 1-7 are the feature bits
(nasal, fricative, plosive, dental, liquid, labial, confident). -/
def PHONES : List Nat := [
  0,          -- a
  0b01001000, -- b
  0b00001100, -- c
  0b00011000, -- d
  0,          -- e
  0b01000100, -- f
  0b00001000, -- g
  0b00000100, -- h
  1,          -- i
  0b00000101, -- j
  0b00001001, -- k
  0b10100000, -- l
  0b00000010, -- m
  0b00010010, -- n
  0,          -- o
  0b01001001, -- p
  0b10101000, -- q
  0b10100001, -- r
  0b00010100, -- s
  0b00011101, -- t
  1,          -- u
  0b01000101, -- v
  0b00000000, -- w
  0b10000100, -- x
  1,          -- y
  0b10010100] -- z

/-- The non-ASCII sound table `PHONES_C1: [u64; LETTERS_C1]` from `src/lib.rs`,
meant to start at byte `0xDF` (ß).  The `÷` entry is `!0` on `u64`,
i.e. `2 ^ 64 - 1`. -/
def PHONES_C1 : List Nat := [
  PHONES.getD 18 0 ^^^ 1, -- ß   (s, discriminant flipped)
  0,          -- à
  0,          -- á
  0,          -- â
  0,          -- ã
  0,          -- ä
  1,          -- å
  0,          -- æ
  PHONES.getD 25 0 ^^^ 1, -- ç   (z, discriminant flipped)
  1,          -- è
  1,          -- é
  1,          -- ê
  1,          -- ë
  1,          -- ì
  1,          -- í
  1,          -- î
  1,          -- ï
  0b00010101, -- ð
  0b00010111, -- ñ
  0,          -- ò
  0,          -- ó
  0,          -- ô
  0,          -- õ
  1,          -- ö
  2 ^ 64 - 1, -- ÷   (!0 on u64)
  1,          -- ø
  1,          -- ù
  1,          -- ú
  1,          -- û
  1,          -- ü
  1,          -- ý
  0b00010101, -- þ
  1]          -- ÿ

/-- The injective phone table `INJECTIVE_PHONES: [u64; LETTERS]` from
`src/lib.rs`, used only for the first character. -/
def INJECTIVE_PHONES : List Nat := [
  0b10000100, -- a*
  0b00100100, -- b
  0b00000110, -- c
  0b00001100, -- d
  0b11011000, -- e*
  0b00100010, -- f
  0b00000100, -- g
  0b00000010, -- h
  0b11111000, -- i*
  0b00000011, -- j
  0b00000101, -- k
  0b01010000, -- l
  0b00000001, -- m
  0b00001001, -- n
  0b10010100, -- o*
  0b00100101, -- p
  0b01010100, -- q
  0b01010001, -- r
  0b00001010, -- s
  0b00001110, -- t
  0b11100000, -- u*
  0b00100011, -- v
  0b00000000, -- w
  0b01000010, -- x
  0b11100100, -- y*
  0b01001010] -- z

/-- The non-ASCII injective table `INJECTIVE_PHONES_C1: [u64; LETTERS_C1]` from
`src/lib.rs`, meant to start at byte `0xDF` (ß). -/
def INJECTIVE_PHONES_C1 : List Nat := [
  INJECTIVE_PHONES.getD 18 0 ^^^ 1, -- ß  (s)
  INJECTIVE_PHONES.getD 0 0 ^^^ 1,  -- à  (a)
  INJECTIVE_PHONES.getD 0 0 ^^^ 1,  -- á  (a)
  0b10000000, -- â
  0b10000110, -- ã
  0b10100110, -- ä
  0b11000010, -- å
  0b10100111, -- æ
  0b01010100, -- ç
  INJECTIVE_PHONES.getD 4 0 ^^^ 1,  -- è  (e)
  INJECTIVE_PHONES.getD 4 0 ^^^ 1,  -- é  (e)
  INJECTIVE_PHONES.getD 4 0 ^^^ 1,  -- ê  (e)
  0b11000110, -- ë
  INJECTIVE_PHONES.getD 8 0 ^^^ 1,  -- ì  (i)
  INJECTIVE_PHONES.getD 8 0 ^^^ 1,  -- í  (i)
  INJECTIVE_PHONES.getD 8 0 ^^^ 1,  -- î  (i)
  INJECTIVE_PHONES.getD 8 0 ^^^ 1,  -- ï  (i)
  0b00001011, -- ð
  0b00001011, -- ñ
  INJECTIVE_PHONES.getD 14 0 ^^^ 1, -- ò  (o)
  INJECTIVE_PHONES.getD 14 0 ^^^ 1, -- ó  (o)
  INJECTIVE_PHONES.getD 14 0 ^^^ 1, -- ô  (o)
  INJECTIVE_PHONES.getD 14 0 ^^^ 1, -- õ  (o)
  0b11011100, -- ö
  2 ^ 64 - 1, -- ÷   (!0 on u64)
  0b11011101, -- ø
  INJECTIVE_PHONES.getD 20 0 ^^^ 1, -- ù  (u)
  INJECTIVE_PHONES.getD 20 0 ^^^ 1, -- ú  (u)
  INJECTIVE_PHONES.getD 20 0 ^^^ 1, -- û  (u)
  INJECTIVE_PHONES.getD 24 0 ^^^ 1, -- ü  (y)
  INJECTIVE_PHONES.getD 24 0 ^^^ 1, -- ý  (y)
  0b00001011, -- þ
  INJECTIVE_PHONES.getD 24 0 ^^^ 1] -- ÿ  (y)

/-- The normalisation both source files apply to a byte before any table
lookup: OR with 32 then wrapping subtraction of 97 on `u8` (adding
`256 - 97 = 159` modulo 256 is the wrapping subtraction). -/
def entryOf (b : Nat) : Nat := ((b ||| 32) + 159) % 256

/-- The branch structure of the `first_byte` computation in `Hash::new`
(`src/lib.rs`), as a function of the normalised entry. -/
def firstPhoneEntry (entry : Nat) : Nat :=
  if entry < LETTERS then INJECTIVE_PHONES.getD entry 0
  else if 0xDF ≤ entry ∧ entry < 0xFF then INJECTIVE_PHONES_C1.getD (entry - 0xDF) 0
  else 0

/-- The `first_byte` computation of `Hash::new` in `src/lib.rs`, applied to the
first byte of the input (0 when the input is empty). -/
def firstPhone (b : Nat) : Nat := firstPhoneEntry (entryOf b)

/-- The table lookup inside the `entry <= 26` arm of the loop of `Hash::new`
(`src/lib.rs`), as a function of the normalised entry.  `none` models the
`continue` (the byte is skipped). -/
def loopPhoneEntry (entry : Nat) : Option Nat :=
  if entry ≤ 26 then
    if entry < LETTERS then some (PHONES.getD entry 0)
    else if 0xDF ≤ entry ∧ entry < 0xFF then some (PHONES_C1.getD (entry - 0xDF) 0)
    else none
  else none

/-- The phone lookup the loop of `Hash::new` performs on a non-first byte. -/
def loopPhone (b : Nat) : Option Nat := loopPhoneEntry (entryOf b)

/-- One step of the inner loop of `Hash::new`: given the accumulator `res`
(whose low byte is the code most recently appended) and the byte `b`,
`some c` means the loop appends the code `c` (`res & 254 != x & 254`), `none`
means the byte is skipped. -/
def loopStep (res b : Nat) : Option Nat :=
  match loopPhone b with
  | some c => if res &&& 254 ≠ c &&& 254 then some c else none
  | none => none

/-- The loop of `Hash::new` over the non-first bytes: `res` is the `u64`
accumulator, `n` the `u8` lane counter (starting at 1, doubled on each append;
the loop stops when `n` wraps to 0). -/
def hashLoop : List Nat → Nat → Nat → Nat
  | [], res, _ => res
  | x :: rest, res, n =>
    if n = 0 then res
    else
      match loopStep res x with
      | some c => hashLoop rest (((res <<< 8) % 2 ^ 64) ||| c) ((n * 2) % 256)
      | none => hashLoop rest res n

/-- `Hash::new` from `src/lib.rs` on the byte sequence of the input:
`res | (first_byte << 56)` on `u64`. -/
def hashNew (s : List Nat) : Nat :=
  hashLoop s.tail 0 1 ||| ((firstPhone (s.headD 0) <<< 56) % 2 ^ 64)

/-- Population count of a `u8` value (the `count_ones` calls in `src/lib.rs`
are all applied to values cast to `u8` first, hence 8 bits suffice). -/
def byteOnes (n : Nat) : Nat :=
  n % 2 + n / 2 % 2 + n / 4 % 2 + n / 8 % 2 + n / 16 % 2 + n / 32 % 2 +
    n / 64 % 2 + n / 128 % 2

/-- `Difference::dist` from `src/lib.rs`: the graduated distance over the XOR
value, the popcount of each byte lane weighted by 1, 2, 4, 8, 16, 32, 64, 128. -/
def dist (x : Nat) : Nat :=
  byteOnes (x % 256)
    + byteOnes ((x >>> 8) % 256) * 2
    + byteOnes ((x >>> 16) % 256) * 4
    + byteOnes ((x >>> 24) % 256) * 8
    + byteOnes ((x >>> 32) % 256) * 16
    + byteOnes ((x >>> 40) % 256) * 32
    + byteOnes ((x >>> 48) % 256) * 64
    + byteOnes ((x >>> 56) % 256) * 128

/-- `Difference::hamming` from `src/lib.rs`: the flat population count of the
64-bit XOR value, written bytewise. -/
def hamming (x : Nat) : Nat :=
  byteOnes (x % 256) + byteOnes ((x >>> 8) % 256) + byteOnes ((x >>> 16) % 256)
    + byteOnes ((x >>> 24) % 256) + byteOnes ((x >>> 32) % 256)
    + byteOnes ((x >>> 40) % 256) + byteOnes ((x >>> 48) % 256)
    + byteOnes ((x >>> 56) % 256)

/-- The `Sub` implementation for `Hash` in `src/lib.rs`: the difference of two
hashes is their bitwise XOR. -/
def subXor (a b : Nat) : Nat := a ^^^ b

/-- `Difference::similar` from `src/lib.rs`: the graduated distance is below
the threshold 10. -/
def similar (x : Nat) : Bool := dist x < 10

/-- The per-lane weights 1, 2, 4, 8, 16, 32, 64, 128 of `Difference::dist`
(`src/lib.rs`), indexed by byte lane (lane 0 least significant). -/
def laneWeight (i : Nat) : Nat := [1, 2, 4, 8, 16, 32, 64, 128].getD i 0

/-- ASCII uppercasing of a byte: the `uppercase` of the case-insensitivity
property, which the spec restricts to ASCII letters (lowercase letters
`a`-`z` map to `A`-`Z`, everything else is unchanged). -/
def asciiUpper (b : Nat) : Nat := if 97 ≤ b ∧ b ≤ 122 then b - 32 else b

/-- ASCII lowercasing of a byte: uppercase letters `A`-`Z` map to `a`-`z`,
everything else is unchanged. -/
def asciiLower (b : Nat) : Nat := if 65 ≤ b ∧ b ≤ 90 then b + 32 else b

/-- Checked variant of `firstPhoneEntry`: the same branch structure, but
table indexing is `List.get?`, so an out-of-range index surfaces as `none`
instead of silently defaulting. -/
def firstPhoneEntryChecked (entry : Nat) : Option Nat :=
  if entry < LETTERS then INJECTIVE_PHONES.get? entry
  else if 0xDF ≤ entry ∧ entry < 0xFF then INJECTIVE_PHONES_C1.get? (entry - 0xDF)
  else some 0

/-- Checked variant of `firstPhone`. -/
def firstPhoneChecked (b : Nat) : Option Nat := firstPhoneEntryChecked (entryOf b)

/-- Checked variant of `loopPhoneEntry`: outer `none` is an out-of-range table
index, `some none` is a skipped byte, `some (some c)` is the code `c`. -/
def loopPhoneEntryChecked (entry : Nat) : Option (Option Nat) :=
  if entry ≤ 26 then
    if entry < LETTERS then (PHONES.get? entry).map some
    else if 0xDF ≤ entry ∧ entry < 0xFF then (PHONES_C1.get? (entry - 0xDF)).map some
    else some none
  else some none

/-- Checked variant of `loopPhone`. -/
def loopPhoneChecked (b : Nat) : Option (Option Nat) := loopPhoneEntryChecked (entryOf b)

/-- Checked variant of `hashLoop`: any out-of-range table index aborts with
`none`. -/
def hashLoopChecked : List Nat → Nat → Nat → Option Nat
  | [], res, _ => some res
  | x :: rest, res, n =>
    if n = 0 then some res
    else
      match loopPhoneChecked x with
      | none => none
      | some none => hashLoopChecked rest res n
      | some (some c) =>
        if res &&& 254 ≠ c &&& 254 then
          hashLoopChecked rest (((res <<< 8) % 2 ^ 64) ||| c) ((n * 2) % 256)
        else hashLoopChecked rest res n

/-- Checked variant of `hashNew`: `some` result exactly when every table index
taken during the computation is in range. -/
def hashNewChecked (s : List Nat) : Option Nat :=
  match firstPhoneChecked (s.headD 0), hashLoopChecked s.tail 0 1 with
  | some fb, some res => some (res ||| ((fb <<< 56) % 2 ^ 64))
  | _, _ => none

namespace Raw

/-- The sound table `PHONES: [u8; LETTERS]` from `src/raw.rs` (same values as
the `u64` table in `src/lib.rs`). -/
def PHONES : List Nat := [
  0,          -- a
  0b01001000, -- b
  0b00001100, -- c
  0b00011000, -- d
  0,          -- e
  0b01000100, -- f
  0b00001000, -- g
  0b00000100, -- h
  1,          -- i
  0b00000101, -- j
  0b00001001, -- k
  0b10100000, -- l
  0b00000010, -- m
  0b00010010, -- n
  0,          -- o
  0b01001001, -- p
  0b10101000, -- q
  0b10100001, -- r
  0b00010100, -- s
  0b00011101, -- t
  1,          -- u
  0b01000101, -- v
  0b00000000, -- w
  0b10000100, -- x
  1,          -- y
  0b10010100] -- z

/-- The non-ASCII sound table `PHONES_C1: [u8; LETTERS_C1]` from `src/raw.rs`.
Its `÷` entry is `!0` on `u8`, i.e. 255. -/
def PHONES_C1 : List Nat := [
  PHONES.getD 18 0 ^^^ 1, -- ß   (s, discriminant flipped)
  0,          -- à
  0,          -- á
  0,          -- â
  0,          -- ã
  0,          -- ä
  1,          -- å
  0,          -- æ
  PHONES.getD 25 0 ^^^ 1, -- ç   (z, discriminant flipped)
  1,          -- è
  1,          -- é
  1,          -- ê
  1,          -- ë
  1,          -- ì
  1,          -- í
  1,          -- î
  1,          -- ï
  0b00010101, -- ð
  0b00010111, -- ñ
  0,          -- ò
  0,          -- ó
  0,          -- ô
  0,          -- õ
  1,          -- ö
  255,        -- ÷   (!0 on u8)
  1,          -- ø
  1,          -- ù
  1,          -- ú
  1,          -- û
  1,          -- ü
  1,          -- ý
  0b00010101, -- þ
  1]          -- ÿ

/-- The injective phone table `INJECTIVE_PHONES: [u8; LETTERS]` from
`src/raw.rs` (same values as the `u64` table in `src/lib.rs`). -/
def INJECTIVE_PHONES : List Nat := [
  0b10000100, -- a*
  0b00100100, -- b
  0b00000110, -- c
  0b00001100, -- d
  0b11011000, -- e*
  0b00100010, -- f
  0b00000100, -- g
  0b00000010, -- h
  0b11111000, -- i*
  0b00000011, -- j
  0b00000101, -- k
  0b01010000, -- l
  0b00000001, -- m
  0b00001001, -- n
  0b10010100, -- o*
  0b00100101, -- p
  0b01010100, -- q
  0b01010001, -- r
  0b00001010, -- s
  0b00001110, -- t
  0b11100000, -- u*
  0b00100011, -- v
  0b00000000, -- w
  0b01000010, -- x
  0b11100100, -- y*
  0b01001010] -- z

/-- The non-ASCII injective table `INJECTIVE_PHONES_C1: [u8; LETTERS_C1]` from
`src/raw.rs`.  Its `÷` entry is `!0` on `u8`, i.e. 255. -/
def INJECTIVE_PHONES_C1 : List Nat := [
  INJECTIVE_PHONES.getD 18 0 ^^^ 1, -- ß  (s)
  INJECTIVE_PHONES.getD 0 0 ^^^ 1,  -- à  (a)
  INJECTIVE_PHONES.getD 0 0 ^^^ 1,  -- á  (a)
  0b10000000, -- â
  0b10000110, -- ã
  0b10100110, -- ä
  0b11000010, -- å
  0b10100111, -- æ
  0b01010100, -- ç
  INJECTIVE_PHONES.getD 4 0 ^^^ 1,  -- è  (e)
  INJECTIVE_PHONES.getD 4 0 ^^^ 1,  -- é  (e)
  INJECTIVE_PHONES.getD 4 0 ^^^ 1,  -- ê  (e)
  0b11000110, -- ë
  INJECTIVE_PHONES.getD 8 0 ^^^ 1,  -- ì  (i)
  INJECTIVE_PHONES.getD 8 0 ^^^ 1,  -- í  (i)
  INJECTIVE_PHONES.getD 8 0 ^^^ 1,  -- î  (i)
  INJECTIVE_PHONES.getD 8 0 ^^^ 1,  -- ï  (i)
  0b00001011, -- ð
  0b00001011, -- ñ
  INJECTIVE_PHONES.getD 14 0 ^^^ 1, -- ò  (o)
  INJECTIVE_PHONES.getD 14 0 ^^^ 1, -- ó  (o)
  INJECTIVE_PHONES.getD 14 0 ^^^ 1, -- ô  (o)
  INJECTIVE_PHONES.getD 14 0 ^^^ 1, -- õ  (o)
  0b11011100, -- ö
  255,        -- ÷   (!0 on u8)
  0b11011101, -- ø
  INJECTIVE_PHONES.getD 20 0 ^^^ 1, -- ù  (u)
  INJECTIVE_PHONES.getD 20 0 ^^^ 1, -- ú  (u)
  INJECTIVE_PHONES.getD 20 0 ^^^ 1, -- û  (u)
  INJECTIVE_PHONES.getD 24 0 ^^^ 1, -- ü  (y)
  INJECTIVE_PHONES.getD 24 0 ^^^ 1, -- ý  (y)
  0b00001011, -- þ
  INJECTIVE_PHONES.getD 24 0 ^^^ 1] -- ÿ  (y)

/-- `map_first` from `src/raw.rs`: normalise the byte with `|= 32` and
wrapping subtraction of 97, then look up the injective tables, defaulting to 0. -/
def map_first (b : Nat) : Nat :=
  let x := entryOf b
  if x < LETTERS then INJECTIVE_PHONES.getD x 0
  else if 0xDF ≤ x ∧ x < 0xFF then INJECTIVE_PHONES_C1.getD (x - 0xDF) 0
  else 0

/-- The table-lookup part of `filter` from `src/raw.rs`: the phone code of a
non-head byte, or `none` for the early `return None` (byte out of domain). -/
def rawPhone (b : Nat) : Option Nat :=
  let x := entryOf b
  if x < LETTERS then some (PHONES.getD x 0)
  else if 0xDF ≤ x ∧ x < 0xFF then some (PHONES_C1.getD (x - 0xDF) 0)
  else none

/-- `filter` from `src/raw.rs`: look the byte up, then push the code exactly
when its discriminant bit differs from that of `prev` (`x & 1 != prev & 1`). -/
def filter (prev b : Nat) : Option Nat :=
  match rawPhone b with
  | some c => if c &&& 1 ≠ prev &&& 1 then some c else none
  | none => none

end Raw

/-! Helper lemmas about the embedding. -/

/-- The normalised entry of any byte is below 256. -/
theorem entryOf_lt (b : Nat) : entryOf b < 256 := by
  unfold entryOf
  exact Nat.mod_lt _ (by decide)

/-- No byte normalises into the interval the C1 branches test for: the
`entry >= 0xDF && entry < 0xFF` range check happens after the wrapping
subtraction, whose image misses that interval entirely. -/
theorem entryOf_misses_C1 : ∀ b < 256, ¬(0xDF ≤ entryOf b ∧ entryOf b < 0xFF) := by
  decide

/-- Bytes that are not ASCII letters normalise to an entry of at least 26. -/
theorem entryOf_ge_26 :
    ∀ b < 256, ¬(65 ≤ b ∧ b ≤ 90) → ¬(97 ≤ b ∧ b ≤ 122) → 26 ≤ entryOf b := by
  decide

/-- An entry of at least 26 is skipped by the loop of `Hash::new`. -/
theorem loopPhoneEntry_none {e : Nat} (he : 26 ≤ e) : loopPhoneEntry e = none := by
  by_cases h : e ≤ 26
  · have : e = 26 := Nat.le_antisymm h he
    subst this
    decide
  · simp [loopPhoneEntry, h]

/-- With the lane counter at 0, the loop leaves the accumulator unchanged. -/
theorem hashLoop_zero (s : List Nat) (res : Nat) : hashLoop s res 0 = res := by
  cases s <;> simp [hashLoop]

/-- A byte whose lookup is `none` is skipped by the loop. -/
theorem hashLoop_cons_skip {j : Nat} (hj : loopPhone j = none) (s : List Nat)
    (res n : Nat) : hashLoop (j :: s) res n = hashLoop s res n := by
  by_cases hn : n = 0
  · subst hn
    rw [hashLoop_zero, hashLoop_zero]
  · simp [hashLoop, if_neg hn, loopStep, hj]

/-- A byte whose lookup is `none` is skipped wherever it sits in the input of
the loop. -/
theorem hashLoop_append_skip {j : Nat} (hj : loopPhone j = none) :
    ∀ (t s : List Nat) (res n : Nat),
      hashLoop (t ++ j :: s) res n = hashLoop (t ++ s) res n
  | [], s, res, n => hashLoop_cons_skip hj s res n
  | x :: t, s, res, n => by
    simp only [List.cons_append, hashLoop]
    by_cases hn : n = 0
    · simp [hn]
    · simp only [if_neg hn]
      cases h : loopStep res x <;> simp only []
      · exact hashLoop_append_skip hj t s res n
      · exact hashLoop_append_skip hj t s _ _

/-- The loop only sees a byte through its normalised entry. -/
theorem loopStep_congr {a b : Nat} (h : entryOf a = entryOf b) (res : Nat) :
    loopStep res a = loopStep res b := by
  unfold loopStep loopPhone
  rw [h]

/-- Mapping an entry-preserving function over the input does not change the
loop. -/
theorem hashLoop_map {f : Nat → Nat} (hf : ∀ b, entryOf (f b) = entryOf b) :
    ∀ (t : List Nat) (res n : Nat), hashLoop (t.map f) res n = hashLoop t res n
  | [], _, _ => rfl
  | x :: t, res, n => by
    simp only [List.map_cons, hashLoop]
    rw [loopStep_congr (hf x) res]
    by_cases hn : n = 0
    · simp [hn]
    · simp only [if_neg hn]
      cases h : loopStep res x <;> simp only []
      · exact hashLoop_map hf t res n
      · exact hashLoop_map hf t _ _

/-- The first-byte code only depends on the normalised entry. -/
theorem firstPhone_congr {a b : Nat} (h : entryOf a = entryOf b) :
    firstPhone a = firstPhone b := by
  unfold firstPhone
  rw [h]

/-- Mapping an entry-preserving function over the input does not change the
hash. -/
theorem hashNew_map {f : Nat → Nat} (hf : ∀ b, entryOf (f b) = entryOf b)
    (s : List Nat) : hashNew (s.map f) = hashNew s := by
  cases s with
  | nil => rfl
  | cons h t =>
    show hashNew (f h :: t.map f) = hashNew (h :: t)
    unfold hashNew
    simp only [List.tail_cons, List.headD_cons]
    rw [hashLoop_map hf, firstPhone_congr (hf h)]

/-- ASCII uppercasing preserves the normalised entry (bit 5 is forced before
the lookup). -/
theorem entryOf_asciiUpper (b : Nat) : entryOf (asciiUpper b) = entryOf b := by
  by_cases h : 97 ≤ b ∧ b ≤ 122
  · obtain ⟨h1, h2⟩ := h
    simp only [asciiUpper, if_pos (And.intro h1 h2)]
    interval_cases b <;> decide
  · simp [asciiUpper, h]

/-- ASCII lowercasing preserves the normalised entry. -/
theorem entryOf_asciiLower (b : Nat) : entryOf (asciiLower b) = entryOf b := by
  by_cases h : 65 ≤ b ∧ b ≤ 90
  · obtain ⟨h1, h2⟩ := h
    simp only [asciiLower, if_pos (And.intro h1 h2)]
    interval_cases b <;> decide
  · simp [asciiLower, h]

/-- Every checked first-byte lookup on a normalised entry succeeds and agrees
with the unchecked one. -/
theorem firstPhoneEntryChecked_eq :
    ∀ e < 256, firstPhoneEntryChecked e = some (firstPhoneEntry e) := by
  decide

/-- Every checked loop lookup on a normalised entry succeeds and agrees with
the unchecked one. -/
theorem loopPhoneEntryChecked_eq :
    ∀ e < 256, loopPhoneEntryChecked e = some (loopPhoneEntry e) := by
  decide

/-- The checked loop never hits an out-of-range table index and agrees with
the unchecked loop. -/
theorem hashLoopChecked_eq :
    ∀ (s : List Nat) (res n : Nat), hashLoopChecked s res n = some (hashLoop s res n)
  | [], _, _ => rfl
  | x :: rest, res, n => by
    simp only [hashLoopChecked, hashLoop]
    by_cases hn : n = 0
    · simp [hn]
    · simp only [if_neg hn]
      have h2 : loopPhoneChecked x = some (loopPhone x) :=
        loopPhoneEntryChecked_eq (entryOf x) (entryOf_lt x)
      rw [h2]
      cases hc : loopPhone x with
      | none =>
        simp only [loopStep, hc]
        exact hashLoopChecked_eq rest res n
      | some c =>
        simp only [loopStep, hc]
        by_cases hcc : res &&& 254 ≠ c &&& 254
        · simp only [if_pos hcc]
          exact hashLoopChecked_eq rest _ _
        · simp only [if_neg hcc]
          exact hashLoopChecked_eq rest res n

/-- The table lookup of the raw API agrees with the lookup of the loop of
`Hash::new` on
every byte (the two differ syntactically: the loop guards with `entry <= 26`
while `filter` does not, but the dead C1 range makes them agree). -/
theorem rawPhone_eq_loopPhone (b : Nat) (hb : b < 256) :
    Raw.rawPhone b = loopPhone b :=
  (by decide : ∀ x < 256, Raw.rawPhone x = loopPhone x) b hb

/-! Claims. -/

/-- Claim C1 (code_bug evaluation): the Latin-1 Supplement block is silent, not
phonetically mapped.  The byte `0xDF` (ß) and the byte `0xE7` (ç) in first
position map to 0 through `raw::map_first` and through the first-byte
computation of `Hash::new`, even though the injective table carries the code
`0b01010100` for ç; and in non-first position ç is skipped outright, so
`hashNew "rç" = hashNew "r"`.  The `entry >= 0xDF && entry < 0xFF` range
checks sit after the wrapping subtraction and can never fire. -/
theorem c1_latin1_block_silent :
    Raw.map_first 0xDF = 0 ∧ Raw.map_first 0xE7 = 0 ∧ firstPhone 0xE7 = 0
    ∧ INJECTIVE_PHONES_C1.getD (0xE7 - 0xDF) 0 = 0b01010100
    ∧ loopPhone 0xE7 = none
    ∧ hashNew [114, 0xE7] = hashNew [114] := by
  decide

/-- Claim C2 (code_bug evaluation): the seven-lane limit is breached.  On the
input "abtbtbtbt" the loop appends eight subsequent phone codes (the lane
counter is only tested at the top of the loop, after the eighth append already
happened), so the eighth code overflows into the top lane: the most
significant byte of the hash is `0b11001100`, not the injective code
`0b10000100` of the first letter `a`. -/
theorem c2_eighth_code_overflows :
    hashNew [97, 98, 116, 98, 116, 98, 116, 98, 116] >>> 56 = 0b11001100
    ∧ firstPhone 97 = 0b10000100
    ∧ hashNew [97, 98, 116, 98, 116, 98, 116, 98, 116] >>> 56 ≠ firstPhone 97 := by
  decide

/-- Claim C3 (counterexample): `hash "rrr"` differs from `hash "raaaa"`.  The
repeated `r` appends one code (161), while every `a` carries code 0, which
equals the low byte of the virgin accumulator under the 254 mask and so is never
appended. -/
theorem c3_rrr_ne_raaaa :
    hashNew [114, 114, 114] ≠ hashNew [114, 97, 97, 97, 97] := by
  decide

/-- Claim C3 (amended): runs do collapse — a repeated consonant collapses to a
single occurrence (`hash "rrr" = hash "rr"`) and a vowel run collapses
(`hash "raaaa" = hash "ra"`), but the two sides collapse to different hashes. -/
theorem c3_run_collapse :
    hashNew [114, 114, 114] = hashNew [114, 114]
    ∧ hashNew [114, 97, 97, 97, 97] = hashNew [114, 97] := by
  decide

/-- Claim C4: case insensitivity.  For every byte string, hashing the ASCII
uppercased string and hashing the ASCII lowercased string both give the hash
of the original: every byte is consumed only through its normalised entry, and
forcing bit 5 erases ASCII case. -/
theorem c4_case_insensitive (s : List Nat) :
    hashNew (s.map asciiUpper) = hashNew s ∧ hashNew (s.map asciiLower) = hashNew s :=
  ⟨hashNew_map entryOf_asciiUpper s, hashNew_map entryOf_asciiLower s⟩

/-- Claim C5: commutativity of the distance functions.  The XOR difference,
the graduated distance and the flat Hamming distance are all symmetric in the
two input strings. -/
theorem c5_distance_comm (a b : List Nat) :
    subXor (hashNew a) (hashNew b) = subXor (hashNew b) (hashNew a)
    ∧ dist (subXor (hashNew a) (hashNew b)) = dist (subXor (hashNew b) (hashNew a))
    ∧ hamming (subXor (hashNew a) (hashNew b))
        = hamming (subXor (hashNew b) (hashNew a)) := by
  have h : subXor (hashNew a) (hashNew b) = subXor (hashNew b) (hashNew a) :=
    Nat.xor_comm _ _
  exact ⟨h, by rw [h], by rw [h]⟩

/-- Claim C6: punctuation/noise invariance.  Concretely
`hash "comp-uter" = hash "computer"` and `hash "comp@u#te?r" = hash "computer"`;
in general a byte that is neither an ASCII letter nor in the Latin-1 block,
inserted anywhere after the first position, leaves the hash unchanged. -/
theorem c6_noise_invariance :
    (hashNew [99, 111, 109, 112, 45, 117, 116, 101, 114]
        = hashNew [99, 111, 109, 112, 117, 116, 101, 114]
      ∧ hashNew [99, 111, 109, 112, 64, 117, 35, 116, 101, 63, 114]
        = hashNew [99, 111, 109, 112, 117, 116, 101, 114])
    ∧ ∀ (p s : List Nat) (j : Nat), j < 256 →
        ¬(65 ≤ j ∧ j ≤ 90) → ¬(97 ≤ j ∧ j ≤ 122) → ¬(0xDF ≤ j ∧ j < 0xFF) →
        p ≠ [] → hashNew (p ++ j :: s) = hashNew (p ++ s) := by
  constructor
  · constructor <;> decide
  · intro p s j hj h1 h2 _h3 hp
    have hskip : loopPhone j = none :=
      loopPhoneEntry_none (entryOf_ge_26 j hj h1 h2)
    cases p with
    | nil => exact absurd rfl hp
    | cons h t =>
      show hashNew (h :: (t ++ j :: s)) = hashNew (h :: (t ++ s))
      unfold hashNew
      simp only [List.tail_cons, List.headD_cons]
      rw [hashLoop_append_skip hskip]

/-- Witness for C6: inserting the punctuation byte 45 (`-`) after `c` leaves
the hash of "cut" unchanged. -/
theorem c6_noise_invariance_witness :
    45 < 256 ∧ hashNew ([99] ++ 45 :: [117, 116]) = hashNew ([99] ++ [117, 116]) :=
  ⟨by decide,
    c6_noise_invariance.2 [99] [117, 116] 45 (by decide) (by decide) (by decide)
      (by decide) (by decide)⟩

/-- Claim C7: the graduated distance is the weighted sum of the popcounts of
the 8 byte lanes of the XOR, and the per-lane weights 1, 2, 4, 8, 16, 32, 64,
128 are strictly increasing from the least to the most significant lane. -/
theorem c7_graduated_distance :
    (∀ x, dist x = ∑ i in Finset.range 8, laneWeight i * byteOnes ((x >>> (8 * i)) % 256))
    ∧ ∀ i j, i < j → j < 8 → laneWeight i < laneWeight j := by
  constructor
  · intro x
    simp only [Finset.sum_range_succ, Finset.sum_range_zero, laneWeight, List.getD,
      dist]
    norm_num [Nat.shiftRight_zero]
    ring
  · intro i j hij hj
    exact (by decide : ∀ i < 8, ∀ j < 8, i < j → laneWeight i < laneWeight j)
      i (Nat.lt_trans hij hj) j hj hij

/-- Witness for C7: the graduated-distance equation evaluated at a concrete
XOR value, and the weight of lane 0 strictly below the weight of lane 7. -/
theorem c7_graduated_distance_witness :
    dist 0x123456789ABCDEF0
        = ∑ i in Finset.range 8, laneWeight i * byteOnes ((0x123456789ABCDEF0 >>> (8 * i)) % 256)
    ∧ laneWeight 0 < laneWeight 7 :=
  ⟨c7_graduated_distance.1 0x123456789ABCDEF0,
    c7_graduated_distance.2 0 7 (by decide) (by decide)⟩

/-- Claim C8: totality and the empty-string value.  The checked hash — in
which every table access is bounds-checked and an out-of-range index aborts —
succeeds on every input byte string and agrees with the hash, and the empty
string hashes to 0. -/
theorem c8_total_empty_zero :
    (∀ s : List Nat, hashNewChecked s = some (hashNew s)) ∧ hashNew [] = 0 := by
  constructor
  · intro s
    unfold hashNewChecked hashNew
    have h1 : firstPhoneChecked (s.headD 0) = some (firstPhone (s.headD 0)) :=
      firstPhoneEntryChecked_eq (entryOf (s.headD 0)) (entryOf_lt (s.headD 0))
    rw [h1, hashLoopChecked_eq]
  · rfl

/-- Claim C9: similarity threshold scenarios.  "what" and "wat" are similar,
"youtube" and "reddit" are not, and the empty string is similar to itself. -/
theorem c9_similarity_scenarios :
    similar (subXor (hashNew [119, 104, 97, 116]) (hashNew [119, 97, 116])) = true
    ∧ similar (subXor (hashNew [121, 111, 117, 116, 117, 98, 101])
        (hashNew [114, 101, 100, 100, 105, 116])) = false
    ∧ similar (subXor (hashNew []) (hashNew [])) = true := by
  decide

/-- Claim C10 (counterexample): `raw::filter` does not coincide with one step
of the inner loop of `Hash::new`.  With last-written code 0 and input byte 105
(`i`, phone code 1) the filter pushes the code (the discriminant bits 0 and 1
differ), while the loop skips it (0 and 1 agree under the 254 mask). -/
theorem c10_filter_ne_loopStep :
    Raw.filter 0 105 = some 1 ∧ loopStep 0 105 = none := by
  decide

/-- Claim C10 (amended): `raw::filter` agrees with the domain test and the
code value of the loop, but applies the discriminant-bit collapse test
instead of the feature-bits test: for every byte, `filter prev b` returns
exactly the code `c` the loop looks up, gated by `c & 1 ≠ prev & 1` (whereas the loop
itself gates an append by `res & 254 ≠ c & 254`). -/
theorem c10_filter_characterisation (prev b : Nat) (hb : b < 256) :
    Raw.filter prev b =
      match loopPhone b with
      | some c => if c &&& 1 ≠ prev &&& 1 then some c else none
      | none => none := by
  unfold Raw.filter
  rw [rawPhone_eq_loopPhone b hb]

/-- Witness for C10: the amended characterisation at `prev = 3`, byte 114
(`r`). -/
theorem c10_filter_characterisation_witness :
    114 < 256 ∧ Raw.filter 3 114 =
      match loopPhone 114 with
      | some c => if c &&& 1 ≠ 3 &&& 1 then some c else none
      | none => none :=
  ⟨by decide, c10_filter_characterisation 3 114 (by decide)⟩

end Eudex

